import Mathlib

/-
Verification development for the HomeHeal (GoRepair) booking backend.

This file gives a shallow embedding, in Lean, of the booking-lifecycle
controllers of the Node/Express/Mongoose backend:

  * Backend/src/controllers/bookingController.js
  * Backend/src/controllers/technicianController.js (first document;
    updateBookingAssignment, updateJobStatus)
  * Backend/src/controllers/partBookingController.js
  * Backend/src/models/Booking.model.js, OTP.model.js, BulkBooking.model.js,
    Technician.model.js

Modelling conventions:
  * Mongo ObjectIds are modelled as Nat; an ObjectId and its string form
    (ObjectId.toString) are identified.
  * Timestamps are Nats (abstract instants); the constant 5-minute OTP TTL
    is kept as the abstract quantity otpTtl added to "now".
  * JS numbers used for money are modelled as Int (all source arithmetic on
    them is integer arithmetic in the claims considered here).
  * Statuses are Strings, exactly as in the source.  Persisting a booking
    (doc.save()) runs mongoose validation of the document over ALL paths
    (validateModifiedOnly defaults to false).  Two validators of
    Booking.model.js decide every claim here and are modelled in
    saveBooking: the status enum, and the custom assigned_technician
    validator, whose body references the identifier User although
    Booking.model.js imports only mongoose - so whenever the path holds a
    technician id the validator throws ReferenceError and the save is
    rejected.  (Custom validators do not run on a nullish path value, so
    bookings with no assigned technician are unaffected.)
  * Each controller operates on the single booking the request resolves
    (Booking.findById / findOne on _id); the embedding therefore takes that
    booking as an argument and the not-found branch is outside the model.
    Query conditions beyond _id are embedded as explicit checks.
  * External collaborators (image upload) enter as function parameters.
  * Statements that in JS throw unconditionally when evaluated - a call of
    an undefined identifier, a library call with arguments the library
    rejects - are embedded as defs of type Except ApiErr Empty: they never
    return normally, and the code below them is unreachable.
-/

namespace HomeHeal

/-- ApiError of utils/ApiErrors.js: an HTTP status code plus a message. -/
structure ApiErr where
  code : Nat
  msg : String
deriving Repr, DecidableEq

/-- One entry of bookingSchema.statusHistory: status, changedBy, note.
The changedAt timestamp is not tracked (no claim mentions it). -/
structure HistoryEntry where
  hstatus : String
  changedBy : Nat
  note : String
deriving Repr, DecidableEq

/-- One entry of bookingSchema.services, with skillsRequired populated from
the referenced Service document (used by the manual assignment path). -/
structure ServiceLine where
  serviceId : Nat
  price : Int
  quantity : Int
  duration : Int
  skillsRequired : List String
deriving Repr, DecidableEq

/-- One entry of bookingSchema.parts: part reference, denormalised name and
price, and quantity. -/
structure PartLine where
  part : Nat
  pname : String
  price : Int
  quantity : Int
deriving Repr, DecidableEq

/-- An activity-log entry pushed by partBookingController
(booking.activities.push).  Note the Booking schema declares no
activities path; the embedding still records the push. -/
structure Activity where
  activityType : String
  performedBy : Nat
deriving Repr, DecidableEq

/-- The Booking document (Booking.model.js), restricted to the fields the
claims touch. -/
structure Booking where
  user : Nat
  assigned_technician : Option Nat
  status : String
  statusHistory : List HistoryEntry
  services : List ServiceLine
  parts : List PartLine
  partsAmount : Int
  totalAmount : Int
  discountAmount : Int
  finalAmount : Int
  scheduleDate : Nat
  preferredTimeSlot : Nat
  notes : Option String
  cancellationReason : Option String
  rating : Option Int
  review : Option String
  declinedBy : List Nat
  activities : List Activity
deriving Repr, DecidableEq

/-- The status enum of bookingSchema.status (Booking.model.js lines
152-165).  Note that the flow statuses reached and otp_pending used by the
controllers are absent from this enum. -/
def validBookingStatuses : List String :=
  ["pending", "confirmed", "assigned", "in_progress",
   "completed", "cancelled", "rescheduled", "rejected"]

/-- Mongoose document save: doc.save() validates the document (all paths;
validateModifiedOnly defaults to false).  Two validators of
Booking.model.js are modelled.  (1) The status enum.  (2) The custom
assigned_technician validator (lines 86-92): its body reads
"await User.findById(technicianId)", but Booking.model.js imports only
mongoose and never the User model, so as soon as the validator runs - it
runs whenever assigned_technician holds a value - it throws
ReferenceError: User is not defined, and the save is rejected.  Either
failure surfaces through asyncHandler as a 500. -/
def saveBooking (b : Booking) : Except ApiErr Booking :=
  if validBookingStatuses.contains b.status then
    if b.assigned_technician.isSome then
      .error ⟨500, "ReferenceError: User is not defined"⟩
    else .ok b
  else .error ⟨500, "Booking validation failed: status is not a valid enum value"⟩

/-- Push one entry on booking.statusHistory (statusHistory.push in JS). -/
def pushHistory (b : Booking) (st : String) (actor : Nat) (note : String) : Booking :=
  { b with statusHistory := b.statusHistory ++ [⟨st, actor, note⟩] }

/-- Boolean success test for Except results. -/
def exceptOk {ε α : Type} (r : Except ε α) : Bool :=
  match r with
  | .ok _ => true
  | .error _ => false

/-! ## OTP model (OTP.model.js) and the verification gate -/

/-- An OTP document: linked booking and technician, the 6-digit code (kept
as a String as in the schema), expiry instant, isUsed flag, attempts
counter, and creation instant (timestamps: true). -/
structure OtpRecord where
  booking : Nat
  technician : Nat
  otp : String
  expiresAt : Nat
  isUsed : Bool
  attempts : Nat
  createdAt : Nat
deriving Repr, DecidableEq

/-- The attempt ceiling hard-coded in verifyBookingOtp (attempts < 3). -/
def maxOtpAttempts : Nat := 3

/-- The OTP TTL: expiresAt = now + 5 minutes in generateBookingOtp.  Time
is abstract, so the ttl is an abstract positive constant. -/
def otpTtl : Nat := 5

/-- The filter of the OTP.findOne query in verifyBookingOtp: same booking
and technician, not used, not expired (expiresAt > now), attempts < 3. -/
def otpValid (now bid tid : Nat) (r : OtpRecord) : Bool :=
  r.booking == bid && r.technician == tid && !r.isUsed &&
    now < r.expiresAt && r.attempts < maxOtpAttempts

/-- Pair every list element with its index (used to model updating the
found document in place, i.e. otpRecord.save()). -/
def idxFrom {α : Type} : Nat → List α → List (Nat × α)
  | _, [] => []
  | n, a :: l => (n, a) :: idxFrom (n + 1) l

/-- List of (index, record) pairs of the OTP store. -/
def idxList {α : Type} (l : List α) : List (Nat × α) := idxFrom 0 l

/-- The sort createdAt : -1 followed by findOne: among the filtered
records, the first one holding a maximal createdAt (a stable descending
sort puts the earliest of the ties first). -/
def pickNewest : List (Nat × OtpRecord) → Option (Nat × OtpRecord)
  | [] => none
  | x :: xs =>
      some (xs.foldl (fun b y => if b.2.createdAt < y.2.createdAt then y else b) x)

/-- OTP.findOne({booking, technician, isUsed: false, expiresAt > now,
attempts < 3}).sort({createdAt: -1}): the most recent valid OTP together
with its position in the store. -/
def findValidOtp (otps : List OtpRecord) (now bid tid : Nat) : Option (Nat × OtpRecord) :=
  pickNewest ((idxList otps).filter (fun p => otpValid now bid tid p.2))

/-- The four failure exits of verifyBookingOtp, one constructor per throw
site, in source order: no valid record found; ceiling reached on a
mismatch; mismatch with attempts left (carrying the remaining count the
message reports); booking not in otp_pending or not assigned to the
caller. -/
inductive VerifyErr
  | NoValidOtp
  | MaxAttemptsReached
  | InvalidOtp (remaining : Nat)
  | InvalidVerificationRequest
  | Internal
deriving Repr, DecidableEq

/-- The persistent state the verification gate touches: the OTP store and
the booking the request names. -/
structure VerifyState where
  otps : List OtpRecord
  booking : Booking
deriving Repr, DecidableEq

/-- verifyBookingOtp (bookingController.js lines 1277-1341).  Returns the
outcome together with the persisted state: the attempt increment and the
isUsed mark are saved before any later failure, so error exits can leave
the OTP store changed. -/
def verifyBookingOtp (now bid tid : Nat) (submitted : String) (s : VerifyState) :
    Except VerifyErr Unit × VerifyState :=
  match findValidOtp s.otps now bid tid with
  | none => (.error .NoValidOtp, s)
  | some (i, r) =>
    let r1 := { r with attempts := r.attempts + 1 }
    if r1.otp ≠ submitted then
      -- otpRecord.save(): the incremented attempts counter is persisted
      let s1 := { s with otps := s.otps.set i r1 }
      if maxOtpAttempts ≤ r1.attempts then (.error .MaxAttemptsReached, s1)
      else (.error (.InvalidOtp (maxOtpAttempts - r1.attempts)), s1)
    else
      -- match: mark used and save, before the booking status is checked
      let r2 := { r1 with isUsed := true }
      let s2 := { s with otps := s.otps.set i r2 }
      if s2.booking.status == "otp_pending" && s2.booking.assigned_technician == some tid then
        let b1 := pushHistory { s2.booking with status := "in_progress" }
          "in_progress" tid "OTP verified, service in progress"
        match saveBooking b1 with
        | .ok b2 => (.ok (), { s2 with booking := b2 })
        | .error _ => (.error .Internal, s2)
      else
        (.error .InvalidVerificationRequest, s2)

/-- generateBookingOtp (bookingController.js lines 1216-1274).  Guard:
booking assigned to the caller and in status reached.  Then all unused
OTPs of the pair are invalidated, the fresh code is stored with a 5-minute
expiry, and the booking is moved to otp_pending.  As in verifyBookingOtp,
the OTP writes are persisted before booking.save(), whose enum validation
in fact rejects otp_pending. -/
def generateBookingOtp (now bid tid : Nat) (newCode : String) (s : VerifyState) :
    Except ApiErr Unit × VerifyState :=
  if !(s.booking.assigned_technician == some tid && s.booking.status == "reached") then
    (.error ⟨400, "Please mark yourself as reached before generating OTP"⟩, s)
  else
    let invalidated := s.otps.map (fun r =>
      if r.booking == bid && r.technician == tid && !r.isUsed then
        { r with isUsed := true } else r)
    let fresh : OtpRecord :=
      { booking := bid, technician := tid, otp := newCode,
        expiresAt := now + otpTtl, isUsed := false, attempts := 0, createdAt := now }
    let s1 := { s with otps := invalidated ++ [fresh] }
    let b1 := pushHistory { s1.booking with status := "otp_pending" }
      "otp_pending" tid "OTP generated and waiting for user verification"
    match saveBooking b1 with
    | .ok b2 => (.ok (), { s1 with booking := b2 })
    | .error e => (.error e, s1)

/-! ## Booking status operations -/

/-- updateBookingStatus (bookingController.js lines 309-344), the handler
of PATCH /bookings/:id/status.  No transition table is consulted: the
caller (owner or assigned technician) may set any status the schema enum
accepts. -/
def updateBookingStatus (uid : Nat) (status? note? : Option String) (b : Booking) :
    Except ApiErr Booking :=
  match status? with
  | none => .error ⟨400, "Status is required"⟩
  | some status =>
    if !(b.user == uid || b.assigned_technician == some uid) then
      .error ⟨403, "Not authorized to update this booking"⟩
    else
      saveBooking { pushHistory b status uid
        ((note?).getD ("Status changed to " ++ status)) with status := status }

/-- The validStatuses list of updateJobStatus (technicianController.js). -/
def jobValidStatuses : List String :=
  ["pending", "confirmed", "assigned", "reached",
   "otp_pending", "in_progress", "completed",
   "cancelled", "rescheduled", "rejected"]

/-- The validTransitions object of updateJobStatus: a partial table; keys
absent from the object (pending, completed, cancelled, rescheduled,
rejected) yield undefined and the transition check is skipped. -/
def validTransitions : String → Option (List String)
  | "assigned" => some ["confirmed", "rejected"]
  | "confirmed" => some ["reached"]
  | "reached" => some ["otp_pending"]
  | "otp_pending" => some ["in_progress"]
  | "in_progress" => some ["completed"]
  | _ => none

/-- updateJobStatus (technicianController.js lines 728-780): status must
be in jobValidStatuses, the booking must be assigned to the caller, and
the move is checked against validTransitions only when the current status
has an entry there. -/
def updateJobStatus (tid : Nat) (status : String) (note? : Option String) (b : Booking) :
    Except ApiErr Booking :=
  if !(jobValidStatuses.contains status) then .error ⟨400, "Invalid status"⟩
  else if !(b.assigned_technician == some tid) then
    .error ⟨404, "Booking not found or not assigned to you"⟩
  else
    let blocked := match validTransitions b.status with
      | some allowed => !(allowed.contains status)
      | none => false
    if blocked then
      .error ⟨400, "Cannot change status from " ++ b.status ++ " to " ++ status⟩
    else
      saveBooking { pushHistory b status tid
        ((note?).getD ("Status changed to " ++ status)) with status := status }

/-- The permission check of updateBookingById, uploadBeforeImage and
uploadAfterImage: role.middleware.js isAdminOrManager is an Express
middleware (req, res, next), but these call sites invoke it directly as
isAdminOrManager(User, user._id).  Its req parameter is then the User
model, req.user is undefined, and the guard !req.user throws the 403
unconditionally, for every caller. -/
def isAdminOrManagerCall : Except ApiErr Unit :=
  .error ⟨403, "Access denied. Admin or manager privileges required."⟩

/-- updateBookingById (bookingController.js lines 139-221).  After the
booking lookup the permission check throws for every caller (see
isAdminOrManagerCall), so the update logic below it - including the path
that pushes a rescheduled history entry without changing status - is
unreachable. -/
def updateBookingById (uid : Nat) (role : String) (techRole : Nat → Option String)
    (status? : Option String) (tech? : Option Nat) (sched? : Option Nat)
    (notes? : Option String) (b : Booking) : Except ApiErr Booking :=
  match isAdminOrManagerCall with
  | .error e => .error e
  | .ok _ =>
    -- dead code below: embedded for completeness
    -- JS operator precedence: (tech? && role == admin) || role == manager || partner
    let techBranch := (tech?.isSome && role == "admin") || role == "manager" || role == "partner"
    if techBranch && !((tech?.bind techRole) == some "technician") then
      .error ⟨400, "Invalid technician ID"⟩
    else
      let b1 := if techBranch then { b with assigned_technician := tech? } else b
      match status? with
      | some st =>
        if !(["pending", "confirmed", "assigned", "in_progress",
              "completed", "cancelled"].contains st) then
          .error ⟨400, "Invalid status"⟩
        else
          let b2 := match sched? with
            | some d => pushHistory { b1 with scheduleDate := d } "rescheduled" uid
                "Your booking Rescheduled"
            | none => b1
          let b3 := match notes? with
            | some n => { b2 with notes := some n }
            | none => b2
          saveBooking { pushHistory b3 st uid ("Status changed to " ++ st) with status := st }
      | none =>
        let b2 := match sched? with
          | some d => pushHistory { b1 with scheduleDate := d } "rescheduled" uid
              "Your booking Rescheduled"
          | none => b1
        let b3 := match notes? with
          | some n => { b2 with notes := some n }
          | none => b2
        if tech?.isSome && techBranch then
          saveBooking { pushHistory b3 "assigned" uid "" with status := "assigned" }
        else .ok b3

/-- cancelBooking (bookingController.js lines 224-258): owner-only, and
only from the statuses the findOne filter lists. -/
def cancelBooking (uid : Nat) (reason? : Option String) (b : Booking) :
    Except ApiErr Booking :=
  match reason? with
  | none => .error ⟨400, "Cancellation reason is required"⟩
  | some reason =>
    if !(b.user == uid && ["pending", "cancelled", "confirmed"].contains b.status) then
      .error ⟨404, "Booking not found or cannot be cancelled"⟩
    else
      saveBooking { pushHistory { b with cancellationReason := some reason }
        "cancelled" uid ("Booking cancelled. Reason: " ++ reason) with status := "cancelled" }

/-- markTechnicianReached (bookingController.js lines 1181-1213): from
assigned, the assigned technician moves the booking to reached.  (The
schema enum lacks reached, so saveBooking rejects the write.) -/
def markTechnicianReached (tid : Nat) (b : Booking) : Except ApiErr Booking :=
  if !(b.assigned_technician == some tid && b.status == "assigned") then
    .error ⟨404, "Booking not found or not assigned to you"⟩
  else
    saveBooking { pushHistory b "reached" tid
      "Technician has reached the location" with status := "reached" }

/-- uploadSelfie (bookingController.js lines 788-889): the assigned
technician, from assigned or in_progress; from assigned the booking moves
to in_progress; otherwise a fresh in_progress history entry is pushed with
the status left as is.  hasFile is req.file, uploadOk the outcome of the
Cloudinary upload. -/
def uploadSelfie (tid : Nat) (hasFile uploadOk : Bool) (b : Booking) :
    Except ApiErr Booking :=
  if !hasFile then .error ⟨400, "Selfie image is required"⟩
  else if !(b.assigned_technician == some tid) then
    .error ⟨403, "Only the assigned technician can upload selfie"⟩
  else if !(["assigned", "in_progress"].contains b.status) then
    .error ⟨400, "Cannot upload selfie for booking with status: " ++ b.status⟩
  else if !uploadOk then .error ⟨500, "Failed to upload selfie. Please try again."⟩
  else if b.status == "assigned" then
    saveBooking { pushHistory b "in_progress" tid
      "Technician reached location and uploaded selfie" with status := "in_progress" }
  else
    saveBooking (pushHistory b "in_progress" tid "Technician updated selfie")

/-- markBookingCompleted (bookingController.js lines 597-709), restricted
to the booking mutation (the technician-stats update is a different
document). -/
def markBookingCompleted (tid : Nat) (b : Booking) : Except ApiErr Booking :=
  if !(b.assigned_technician == some tid && ["assigned", "in_progress"].contains b.status) then
    .error ⟨404, "Booking not found or you are not authorized to complete this booking"⟩
  else
    saveBooking { pushHistory b "completed" tid
      "Service completed by technician" with status := "completed" }

/-- rescheduleBooking (bookingController.js lines 712-785): owner or
admin/manager, from pending/confirmed/assigned; it records a history
entry under the current status, and when a technician was assigned it
unassigns and reverts to confirmed, recording that too. -/
def rescheduleBooking (uid : Nat) (role : String) (sched? slot? : Option Nat)
    (reason? : Option String) (b : Booking) : Except ApiErr Booking :=
  match sched?, slot? with
  | some sched, some slot =>
    if !(b.user == uid || role == "admin" || role == "manager") then
      .error ⟨403, "Not authorized to reschedule this booking"⟩
    else if !(["pending", "confirmed", "assigned"].contains b.status) then
      .error ⟨400, "Cannot reschedule booking with status: " ++ b.status⟩
    else
      let b1 := pushHistory { b with scheduleDate := sched, preferredTimeSlot := slot }
        b.status uid ((reason?).getD "No reason provided")
      let b2 :=
        if b1.assigned_technician.isSome then
          pushHistory { b1 with assigned_technician := none, status := "confirmed" }
            "confirmed" uid "Technician unassigned due to rescheduling"
        else b1
      saveBooking b2
  | _, _ => .error ⟨400, "New schedule date and time slot are required"⟩

/-- submitBookingFeedback (bookingController.js lines 1082-1125): the
owner rates a completed booking once; neither status nor history move. -/
def submitBookingFeedback (uid : Nat) (rating : Int) (review : String) (b : Booking) :
    Except ApiErr Booking :=
  if rating < 1 || 5 < rating then
    .error ⟨400, "Please provide a valid rating between 1 and 5"⟩
  else if !(b.user == uid && b.status == "completed") then
    .error ⟨404, "Booking not found or not eligible for feedback"⟩
  else if b.rating.isSome then
    .error ⟨400, "Feedback already submitted for this booking"⟩
  else
    saveBooking { b with rating := some rating, review := some review }

/-- updateBookingAssignment (technicianController.js lines 664-726): the
assigned technician accepts (to confirmed) or rejects (back to pending,
recording the decliner in declinedBy). -/
def updateBookingAssignment (tid : Nat) (action : String) (b : Booking) :
    Except ApiErr Booking :=
  if !(["accept", "reject"].contains action) then
    .error ⟨400, "Action must be either accept or reject"⟩
  else if !(b.assigned_technician == some tid && b.status == "assigned") then
    .error ⟨404, "Booking not found or already processed"⟩
  else if action == "accept" then
    saveBooking { pushHistory b "confirmed" tid
      "Technician accepted the booking" with status := "confirmed" }
  else
    saveBooking { pushHistory
      { b with assigned_technician := none, declinedBy := b.declinedBy ++ [tid] }
      "pending" tid
      "Technician declined the assignment, available for other technicians"
      with status := "pending" }

/-! ## Parts controller (partBookingController.js) -/

/-- A Part document (Part.model.js): identity, name, unit price. -/
structure Part where
  pid : Nat
  pname : String
  price : Int
deriving Repr, DecidableEq

/-- Part.findById over the catalog. -/
def findPart (catalog : List Part) (pid : Nat) : Option Part :=
  catalog.find? (fun p => p.pid == pid)

/-- The merge-or-append step of addPartsToBooking: if the part is already a
line item, add the quantity to it, else append a fresh line. -/
def mergePart (p : Part) (q : Int) : List PartLine → List PartLine
  | [] => [⟨p.pid, p.pname, p.price, q⟩]
  | pl :: rest =>
    if pl.part == p.pid then { pl with quantity := pl.quantity + q } :: rest
    else pl :: mergePart p q rest

/-- The for-loop of addPartsToBooking: resolve each requested
(partId, quantity), merge it into the line items, and add
price * quantity to the running parts amount. -/
def addPartsLoop (catalog : List Part) :
    List (Nat × Int) → List PartLine → Int → Except ApiErr (List PartLine × Int)
  | [], parts, amt => .ok (parts, amt)
  | (pid, q) :: rest, parts, amt =>
    match findPart catalog pid with
    | none => .error ⟨404, "Part not found"⟩
    | some p => addPartsLoop catalog rest (mergePart p q parts) (amt + p.price * q)

/-- The sum the controller recomputes:
booking.services.reduce((sum, service) => sum + service.price, 0) -
note it sums unit prices, ignoring quantities. -/
def servicesPriceSum (b : Booking) : Int :=
  (b.services.map (fun s => s.price)).sum

/-- addPartsToBooking up to (but not including) booking.save(): the
document exactly as the controller builds it.  Guards: a non-empty parts
array, and booking.status must equal the literal "in-progress" (note the
hyphen; the Booking schema enum spells the status "in_progress").  The
recomputed total - services price sum plus parts amount minus discount -
is written into totalAmount; finalAmount is never touched. -/
def addPartsDoc (catalog : List Part) (uid : Nat) (req : List (Nat × Int))
    (b : Booking) : Except ApiErr Booking :=
  if req.isEmpty then
    .error ⟨400, "Please provide at least one part with quantity"⟩
  else if b.status ≠ "in-progress" then
    .error ⟨400, "Parts can only be added to bookings in progress"⟩
  else
    match addPartsLoop catalog req b.parts b.partsAmount with
    | .error e => .error e
    | .ok (parts2, amt2) =>
      .ok { b with parts := parts2, partsAmount := amt2,
                   totalAmount := servicesPriceSum b + amt2 - b.discountAmount,
                   activities := b.activities ++ [⟨"parts_added", uid⟩] }

/-- addPartsToBooking (partBookingController.js lines 8-89): build the
document and save it. -/
def addPartsToBooking (catalog : List Part) (uid : Nat) (req : List (Nat × Int))
    (b : Booking) : Except ApiErr Booking :=
  match addPartsDoc catalog uid req b with
  | .error e => .error e
  | .ok b2 => saveBooking b2

/-- removePartFromBooking (partBookingController.js lines 94-159), same
status guard; partial removal lowers the quantity (dropping the line at
zero), full removal drops the line; partsAmount decreases accordingly and
totalAmount is recomputed the same way as on addition. -/
def removePartFromBooking (uid : Nat) (partId : Nat) (qty? : Option Int)
    (b : Booking) : Except ApiErr Booking :=
  if b.status ≠ "in-progress" then
    .error ⟨400, "Parts can only be modified in bookings that are in progress"⟩
  else
    match b.parts.find? (fun pl => pl.part == partId) with
    | none => .error ⟨404, "Part not found in this booking"⟩
    | some pl =>
      let isQtyReduction := match qty? with
        | some q => decide (q < pl.quantity)
        | none => false
      let parts2 :=
        if isQtyReduction then
          let q := (qty?).getD 0
          let updated := b.parts.map (fun x =>
            if x.part == partId then { x with quantity := x.quantity - q } else x)
          if pl.quantity - q == 0 then updated.filter (fun x => !(x.part == partId))
          else updated
        else b.parts.filter (fun x => !(x.part == partId))
      let amt2 :=
        if isQtyReduction then b.partsAmount - pl.price * ((qty?).getD 0)
        else b.partsAmount - pl.price * pl.quantity
      let b2 := { b with parts := parts2, partsAmount := amt2,
                         totalAmount := servicesPriceSum b + amt2 - b.discountAmount,
                         activities := b.activities ++ [⟨"parts_removed", uid⟩] }
      saveBooking b2

/-! ## Matching engine (assignTechnicianToBooking, lines 349-594) -/

/-- A weekday window of technicianSchema.availability.workingHours:
start/end as "HH:MM" strings plus the available flag. -/
structure DayWindow where
  wstart : String
  wend : String
  available : Bool
deriving Repr, DecidableEq

/-- The Technician discriminator document, restricted to the fields the
assignment pipeline reads, plus the break window fields
(availability.breakStart / breakEnd) which the pipeline never reads. -/
structure Technician where
  tid : Nat
  status : String
  isOnline : Bool
  services : List Nat
  skills : List String
  maxWorkload : Nat
  averageRating : Int
  workingHours : List (String × DayWindow)
  breakStart : Option Nat
  breakEnd : Option Nat
deriving Repr, DecidableEq

/-- Lookup of availability.workingHours[day]. -/
def lookupDay (wh : List (String × DayWindow)) (day : String) : Option DayWindow :=
  (wh.find? (fun p => p.1 == day)).map (fun p => p.2)

/-- Value of one decimal digit character. -/
def digitVal (c : Char) : Option Nat :=
  if c = '0' then some 0 else if c = '1' then some 1 else if c = '2' then some 2
  else if c = '3' then some 3 else if c = '4' then some 4 else if c = '5' then some 5
  else if c = '6' then some 6 else if c = '7' then some 7 else if c = '8' then some 8
  else if c = '9' then some 9 else none

/-- Numeric value of a digit string (none on empty or non-digit input). -/
def digitsVal : List Char → Option Nat
  | [] => none
  | cs => cs.foldl (fun acc c => match acc, digitVal c with
      | some n, some d => some (n * 10 + d)
      | _, _ => none) (some 0)

/-- The $toInt of the pipeline ($substr [time, 0, 2]): the integer value of the
first two characters of the configured "HH:MM" string - the hour only,
never the minutes. -/
def toIntHH (s : String) : Nat := (digitsVal (s.data.take 2)).getD 0

/-- Encoding of the instant in the controller:
now.getHours() * 100 + now.getMinutes(). -/
def currentTimeOf (h m : Nat) : Nat := h * 100 + m

/-- The isWorkingNow $addFields expression: the window of the day (defaulting
to available: false when the weekday is not configured) must be available,
and the encoded current time must lie between the hour values parsed from
the first two characters of start and end - inclusive on both sides, and
with no break-window condition anywhere. -/
def isWorkingNow (day : String) (currentTime : Nat) (t : Technician) : Bool :=
  match lookupDay t.workingHours day with
  | some w => w.available && (toIntHH w.wstart ≤ currentTime && currentTime ≤ toIntHH w.wend)
  | none => false

/-- Line 374 of bookingController.js:
const Technician = User.discriminator('Technician').
Model.discriminator requires a name AND a schema; called with the name
alone, mongoose throws before either assignment branch is entered, so
every call of assignTechnicianToBooking that passes the two request
guards ends here.  The Empty result type records that the call never
returns normally. -/
def technicianDiscriminatorCall : Except ApiErr Empty :=
  .error ⟨500, "User.discriminator called without a discriminator schema"⟩

/-- assignTechnicianToBooking (bookingController.js lines 349-594),
restricted to the booking mutation; role is the role of the caller.  After
the role guard and the already-assigned guard, the handler evaluates
User.discriminator('Technician') and crashes (technicianDiscriminatorCall).
Everything after line 374 is unreachable and therefore not embedded: the
manual branch (Technician.findOne, workload and skills checks), and the
automatic branch, which would itself crash first at
now.toLocaleString('en-US', \x7bweekday: 'lowercase'\x7d) - 'lowercase' is
not a legal weekday option value, so toLocaleString throws RangeError -
before ever reaching its aggregation pipeline (a pipeline that, as
written, compares the String elements of technician.services with
ObjectId values in $setIntersection and $in, so those never match, and
places $geoNear mid-pipeline, which MongoDB rejects). -/
def assignTechnicianToBooking (_uid : Nat) (role : String) (_tech? : Option Nat)
    (forceAssign : Bool) (b : Booking) : Except ApiErr Booking :=
  if !(["admin", "manager", "partner"].contains role) then
    .error ⟨403, "Only admin, manager, or partner can assign technicians"⟩
  else if b.assigned_technician.isSome && !forceAssign then
    .error ⟨400, "Booking already has an assigned technician. Use forceAssign=true to override"⟩
  else
    match technicianDiscriminatorCall with
    | .error e => .error e
    | .ok e => e.elim

/-! ## Bulk orchestrator (createBulkBooking, lines 946-1077) -/

/-- Decidable equality of Except values with decidable components. -/
instance exceptDecEq {ε α : Type} [DecidableEq ε] [DecidableEq α] :
    DecidableEq (Except ε α) := fun x y =>
  match x, y with
  | .ok a, .ok b =>
    if h : a = b then isTrue (by rw [h]) else isFalse (fun hh => by cases hh; exact h rfl)
  | .error a, .error b =>
    if h : a = b then isTrue (by rw [h]) else isFalse (fun hh => by cases hh; exact h rfl)
  | .ok _, .error _ => isFalse (fun hh => by cases hh)
  | .error _, .ok _ => isFalse (fun hh => by cases hh)

/-- Everything before the first colon, and everything after it. -/
def splitColon (cs : List Char) : List Char × List Char :=
  (cs.takeWhile (fun c => c ≠ ':'), (cs.dropWhile (fun c => c ≠ ':')).drop 1)

/-- Minute-of-day value of an "HH:MM" string (spec-side). -/
def parseHHMM (s : String) : Nat :=
  let p := splitColon s.data
  (digitsVal p.1).getD 0 * 60 + (digitsVal p.2).getD 0

/-- Modelled from the spec (section 4.2): the time-of-day of the instant falls
within the window [start, end) compared at minute resolution. -/
def specInWindow (wstart wend : String) (h m : Nat) : Bool :=
  parseHHMM wstart ≤ h * 60 + m && h * 60 + m < parseHHMM wend

/-- Invariant of claim C5: the status of the booking equals the status of the
last statusHistory entry. -/
def histInv (b : Booking) : Prop :=
  (b.statusHistory.getLast?).map (fun e => e.hstatus) = some b.status

/-- A booking operation preserves the history invariant and only ever
appends to statusHistory. -/
def preservesHist (f : Booking → Except ApiErr Booking) : Prop :=
  ∀ b b2, f b = .ok b2 →
    (histInv b → histInv b2) ∧ ∃ t, b2.statusHistory = b.statusHistory ++ t

/-! ## Concrete sample inputs for witnesses and counterexamples -/

/-- A plain pending booking owned by user 1. -/
def baseBooking : Booking :=
  { user := 1, assigned_technician := none, status := "pending",
    statusHistory := [⟨"pending", 1, ""⟩], services := [], parts := [],
    partsAmount := 0, totalAmount := 0, discountAmount := 0, finalAmount := 0,
    scheduleDate := 0, preferredTimeSlot := 0, notes := none,
    cancellationReason := none, rating := none, review := none,
    declinedBy := [], activities := [] }

/-- The spec scenario booking: one service of price 500, no parts, no
discount, finalAmount 500; its status is the literal the parts guard
demands ("in-progress" - not a schema enum value). -/
def c2Booking : Booking :=
  { baseBooking with
      status := "in-progress",
      services := [⟨10, 500, 1, 60, []⟩], totalAmount := 500, finalAmount := 500 }

/-- A catalog holding the 50-cost part of the spec scenario. -/
def c2Catalog : List Part := [⟨1, "compressor valve", 50⟩]

/-- The document addPartsToBooking builds for the scenario before saving:
two units of part 1, partsAmount 100, the recomputed total 600 written
into totalAmount, finalAmount untouched at 500. -/
def c2Doc : Booking :=
  { c2Booking with
      parts := [⟨1, "compressor valve", 50, 2⟩], partsAmount := 100,
      totalAmount := 600, activities := [⟨"parts_added", 9⟩] }

/-- An OTP store holding one unused, unexpired record for booking 5 and
technician 2 whose attempts counter has reached the ceiling. -/
def lockedState : VerifyState :=
  { otps := [⟨5, 2, "123456", 100, false, 3, 0⟩],
    booking := { baseBooking with status := "otp_pending", assigned_technician := some 2 } }

/-- A fresh OTP store (no attempts yet) for booking 5 and technician 2,
with the booking in otp_pending. -/
def freshOtpState : VerifyState :=
  { otps := [⟨5, 2, "111222", 100, false, 0, 0⟩],
    booking := { baseBooking with status := "otp_pending", assigned_technician := some 2 } }

/-- Same OTP store, but the booking is still in assigned (not otp_pending). -/
def earlyOtpState : VerifyState :=
  { otps := [⟨5, 2, "111222", 100, false, 0, 0⟩],
    booking := { baseBooking with status := "assigned", assigned_technician := some 2 } }

/-- The technician of the availability evaluation: available on
monday from 00:30 to 23:30, with a break window covering the whole day. -/
def c9Tech : Technician :=
  { tid := 4, status := "active", isOnline := true, services := [10], skills := [],
    maxWorkload := 5, averageRating := 4,
    workingHours := [("monday", ⟨"00:30", "23:30", true⟩)],
    breakStart := some 0, breakEnd := some 2359 }

/-- The state verifyBookingOtp produces from earlyOtpState on the correct
code: the record consumed, yet the booking untouched (the call fails). -/
def c10OutState : VerifyState :=
  { otps := [⟨5, 2, "111222", 100, true, 1, 0⟩],
    booking := earlyOtpState.booking }

/-- The booking updateBookingStatus produces from baseBooking for status
confirmed. -/
def c5Out : Booking :=
  { baseBooking with
    status := "confirmed",
    statusHistory := [⟨"pending", 1, ""⟩, ⟨"confirmed", 1, "Status changed to confirmed"⟩] }

/-! ## Theorems -/

/-- saveBooking only ever returns its argument. -/
theorem saveBooking_ok {b b2 : Booking} (h : saveBooking b = .ok b2) : b2 = b := by
  unfold saveBooking at h
  split at h
  · split at h
    · cases h
    · exact (Except.ok.injEq ..).mp h |>.symm
  · cases h

/-- A successful save requires the status to pass the schema enum. -/
theorem saveBooking_enum {b b2 : Booking} (h : saveBooking b = .ok b2) :
    validBookingStatuses.contains b.status = true := by
  unfold saveBooking at h
  split at h
  · assumption
  · cases h

/-- The last element of a list extended on the right. -/
theorem getLast?_append_one {α : Type} (l : List α) (e : α) :
    (l ++ [e]).getLast? = some e :=
  List.getLast?_concat l

/-- Pushing an entry and setting status to the pushed status restores the
history invariant. -/
theorem histInv_pushset (b : Booking) (st : String) (a : Nat) (n : String) :
    histInv { pushHistory b st a n with status := st } := by
  simp [histInv, pushHistory, getLast?_append_one]

/-- Pushing an entry whose status equals the current status of the booking
keeps the history invariant. -/
theorem histInv_push_same (b : Booking) (st : String) (a : Nat) (n : String)
    (h : b.status = st) : histInv (pushHistory b st a n) := by
  simp [histInv, pushHistory, getLast?_append_one, h]

/-- The foldl that models findOne after a descending sort picks one of the
candidates. -/
theorem foldl_pick_mem (x : Nat × OtpRecord) (xs : List (Nat × OtpRecord)) :
    xs.foldl (fun b y => if b.2.createdAt < y.2.createdAt then y else b) x ∈ x :: xs := by
  induction xs generalizing x with
  | nil => simp [List.foldl]
  | cons y ys ih =>
    simp only [List.foldl]
    rcases List.mem_cons.mp (ih (if x.2.createdAt < y.2.createdAt then y else x)) with h1 | h1
    · rw [h1]; split <;> simp
    · simp [h1]

/-- pickNewest only returns elements of its input. -/
theorem pickNewest_mem {l : List (Nat × OtpRecord)} {p : Nat × OtpRecord}
    (h : pickNewest l = some p) : p ∈ l := by
  cases l with
  | nil => cases h
  | cons x xs =>
    simp only [pickNewest] at h
    injection h with h
    rw [← h]
    exact foldl_pick_mem x xs

/-- A pair drawn from an indexed list carries an element of the list. -/
theorem idxFrom_mem {α : Type} {n : Nat} {l : List α} {p : Nat × α}
    (h : p ∈ idxFrom n l) : p.2 ∈ l := by
  induction l generalizing n with
  | nil => cases h
  | cons a as ih =>
    simp only [idxFrom] at h
    rcases List.mem_cons.mp h with h1 | h1
    · rw [h1]; simp
    · exact List.mem_cons_of_mem _ (ih h1)

/-- The record found by findValidOtp is in the store and passes the query
filter. -/
theorem findValidOtp_spec {otps : List OtpRecord} {now bid tid i : Nat} {r : OtpRecord}
    (h : findValidOtp otps now bid tid = some (i, r)) :
    r ∈ otps ∧ otpValid now bid tid r = true := by
  unfold findValidOtp at h
  have hm := List.mem_filter.mp (pickNewest_mem h)
  exact ⟨idxFrom_mem hm.1, hm.2⟩

/-- Unfolding of the findOne filter. -/
theorem otpValid_spec {now bid tid : Nat} {r : OtpRecord}
    (h : otpValid now bid tid r = true) :
    r.booking = bid ∧ r.technician = tid ∧ r.isUsed = false ∧
      now < r.expiresAt ∧ r.attempts < maxOtpAttempts := by
  simp only [otpValid, Bool.and_eq_true, beq_iff_eq, Bool.not_eq_true',
    decide_eq_true_eq] at h
  tauto

/-- Any outcome of verifyBookingOtp keeps every attempts counter at or
below the ceiling: only a record with attempts < 3 is ever found, and it
is incremented exactly once. -/
theorem otp_bound_helper (now bid tid : Nat) (sub : String) (s : VerifyState)
    (res : Except VerifyErr Unit) (s2 : VerifyState)
    (h : verifyBookingOtp now bid tid sub s = (res, s2))
    (hb : ∀ o ∈ s.otps, o.attempts ≤ maxOtpAttempts) :
    ∀ o ∈ s2.otps, o.attempts ≤ maxOtpAttempts := by
  unfold verifyBookingOtp at h
  split at h
  · injection h with h1 h2
    subst h2
    exact hb
  case h_2 i r heq =>
    have hatt := (otpValid_spec (findValidOtp_spec heq).2).2.2.2.2
    have hset : ∀ (u : OtpRecord), u.attempts ≤ maxOtpAttempts →
        ∀ o ∈ s.otps.set i u, o.attempts ≤ maxOtpAttempts := by
      intro u hu o ho
      rcases List.mem_or_eq_of_mem_set ho with h1 | h1
      · exact hb o h1
      · rw [h1]; exact hu
    dsimp only at h
    split at h
    · split at h <;>
        (injection h with h1 h2; subst h2; exact hset _ (Nat.succ_le_of_lt hatt))
    · split at h
      · split at h <;>
          (injection h with h1 h2; subst h2; exact hset _ (Nat.succ_le_of_lt hatt))
      · injection h with h1 h2
        subst h2
        exact hset _ (Nat.succ_le_of_lt hatt)

/-- Whenever the lookup finds a valid record, the call increments that
counter of that record by one, persisted through the save of the record. -/
theorem otp_incr_helper (now bid tid : Nat) (sub : String) (s : VerifyState)
    (res : Except VerifyErr Unit) (s2 : VerifyState) (i : Nat) (r : OtpRecord)
    (h : verifyBookingOtp now bid tid sub s = (res, s2))
    (heq : findValidOtp s.otps now bid tid = some (i, r)) :
    ∃ u, s2.otps = s.otps.set i u ∧ u.attempts = r.attempts + 1 := by
  unfold verifyBookingOtp at h
  rw [heq] at h
  dsimp only at h
  split at h
  · split at h <;> (injection h with h1 h2; subst h2; exact ⟨_, rfl, rfl⟩)
  · split at h
    · split at h <;> (injection h with h1 h2; subst h2; exact ⟨_, rfl, rfl⟩)
    · injection h with h1 h2
      subst h2
      exact ⟨_, rfl, rfl⟩

/-- On a mismatching code the call fails, with the remaining-attempts
count while attempts remain, and with the ceiling error on the attempt
that reaches the limit. -/
theorem otp_mismatch_helper (now bid tid : Nat) (sub : String) (s : VerifyState)
    (res : Except VerifyErr Unit) (s2 : VerifyState) (i : Nat) (r : OtpRecord)
    (h : verifyBookingOtp now bid tid sub s = (res, s2))
    (heq : findValidOtp s.otps now bid tid = some (i, r))
    (hne : r.otp ≠ sub) :
    (r.attempts + 1 < maxOtpAttempts →
       res = .error (.InvalidOtp (maxOtpAttempts - (r.attempts + 1)))) ∧
    (maxOtpAttempts ≤ r.attempts + 1 → res = .error .MaxAttemptsReached) := by
  unfold verifyBookingOtp at h
  rw [heq] at h
  dsimp only at h
  split at h
  · split at h
    case isTrue hle =>
      injection h with h1 h2
      subst h1
      exact ⟨fun hlt => absurd hle (by omega), fun _ => rfl⟩
    case isFalse hle =>
      injection h with h1 h2
      subst h1
      exact ⟨fun _ => rfl, fun hge => absurd hge hle⟩
  case isFalse hc =>
    have hx : r.otp = sub := by
      by_contra hx
      exact hc (by simpa using hx)
    exact absurd hx hne

/-- Once every record of the pair has reached the attempt ceiling, the
lookup filter (attempts < 3) excludes them all and the call fails with
NoValidOtp - whatever code is submitted - leaving the store unchanged. -/
theorem otp_locked_helper (now bid tid : Nat) (sub : String) (s : VerifyState)
    (hall : ∀ o ∈ s.otps, o.booking = bid → o.technician = tid →
      maxOtpAttempts ≤ o.attempts) :
    verifyBookingOtp now bid tid sub s = (.error .NoValidOtp, s) := by
  have hnone : findValidOtp s.otps now bid tid = none := by
    unfold findValidOtp
    have hfil : (idxList s.otps).filter (fun p => otpValid now bid tid p.2) = [] := by
      rw [List.filter_eq_nil_iff]
      intro p hp hv
      obtain ⟨hbk, htec, _, _, hlt⟩ := otpValid_spec hv
      exact absurd (hall p.2 (idxFrom_mem hp) hbk htec) (Nat.not_le.mpr hlt)
    rw [hfil]
    rfl
  unfold verifyBookingOtp
  rw [hnone]

/-- C3, counterexample: once the attempts counter of the record stands at the
ceiling, a further call with the CORRECT code does not fail with the
ceiling error (CodeLocked, the Maximum-attempts throw) - the lookup
filter attempts < 3 excludes the record, so the call fails with
NoValidOtp instead. -/
theorem C3_cex :
    (∃ o ∈ lockedState.otps, o.otp = "123456" ∧ o.isUsed = false ∧
       10 < o.expiresAt ∧ o.attempts = maxOtpAttempts) ∧
    verifyBookingOtp 10 5 2 "123456" lockedState = (.error .NoValidOtp, lockedState) ∧
    VerifyErr.NoValidOtp ≠ VerifyErr.MaxAttemptsReached := by decide

/-- C3 as amended: attempts never exceed 3; every call that finds a valid
record increments its counter; a mismatching code fails with the
remaining-attempts count while attempts remain, and with
MaxAttemptsReached on the call that reaches the ceiling; afterwards -
once every record of the pair is at the ceiling - any call, correct code
included, fails with NoValidOtp (not MaxAttemptsReached) and leaves the
store unchanged. -/
theorem C3_amended_thm :
    (∀ (now bid tid : Nat) (sub : String) (s : VerifyState) res s2,
       verifyBookingOtp now bid tid sub s = (res, s2) →
       (∀ o ∈ s.otps, o.attempts ≤ maxOtpAttempts) →
       ∀ o ∈ s2.otps, o.attempts ≤ maxOtpAttempts) ∧
    (∀ (now bid tid : Nat) (sub : String) (s : VerifyState) res s2 (i : Nat) r,
       verifyBookingOtp now bid tid sub s = (res, s2) →
       findValidOtp s.otps now bid tid = some (i, r) →
       ∃ u, s2.otps = s.otps.set i u ∧ u.attempts = r.attempts + 1) ∧
    (∀ (now bid tid : Nat) (sub : String) (s : VerifyState) res s2 (i : Nat) r,
       verifyBookingOtp now bid tid sub s = (res, s2) →
       findValidOtp s.otps now bid tid = some (i, r) →
       r.otp ≠ sub →
       (r.attempts + 1 < maxOtpAttempts →
          res = .error (.InvalidOtp (maxOtpAttempts - (r.attempts + 1)))) ∧
       (maxOtpAttempts ≤ r.attempts + 1 → res = .error .MaxAttemptsReached)) ∧
    (∀ (now bid tid : Nat) (sub : String) (s : VerifyState),
       (∀ o ∈ s.otps, o.booking = bid → o.technician = tid →
          maxOtpAttempts ≤ o.attempts) →
       verifyBookingOtp now bid tid sub s = (.error .NoValidOtp, s)) :=
  ⟨fun now bid tid sub s res s2 h hb => otp_bound_helper now bid tid sub s res s2 h hb,
   fun now bid tid sub s res s2 i r h heq => otp_incr_helper now bid tid sub s res s2 i r h heq,
   fun now bid tid sub s res s2 i r h heq hne =>
     otp_mismatch_helper now bid tid sub s res s2 i r h heq hne,
   fun now bid tid sub s hall => otp_locked_helper now bid tid sub s hall⟩

/-- C3 witness: the amended theorem applied at two concrete stores - the
locked store rejects the correct code with NoValidOtp, and a wrong-code
call on a fresh store keeps every counter at or below the ceiling. -/
theorem C3_witness :
    verifyBookingOtp 10 5 2 "123456" lockedState = (.error .NoValidOtp, lockedState) ∧
    (∀ o ∈ (verifyBookingOtp 10 5 2 "999999" freshOtpState).2.otps,
       o.attempts ≤ maxOtpAttempts) := by
  refine ⟨C3_amended_thm.2.2.2 10 5 2 "123456" lockedState (by decide), ?_⟩
  exact C3_amended_thm.1 10 5 2 "999999" freshOtpState
    (verifyBookingOtp 10 5 2 "999999" freshOtpState).1
    (verifyBookingOtp 10 5 2 "999999" freshOtpState).2 rfl (by decide)

/-- C10: when the submitted code matches the found valid record but the
booking is not in otp_pending for this technician, the call fails with
InvalidVerificationRequest - yet the matching record has already been
saved as used (attempts incremented, isUsed true): the error path
permanently consumes the OTP while the booking stays unchanged. -/
theorem C10_thm (now bid tid : Nat) (sub : String) (s : VerifyState) (i : Nat)
    (r : OtpRecord)
    (heq : findValidOtp s.otps now bid tid = some (i, r))
    (hotp : r.otp = sub)
    (hnot : ¬(s.booking.status = "otp_pending" ∧
              s.booking.assigned_technician = some tid)) :
    verifyBookingOtp now bid tid sub s =
      (.error .InvalidVerificationRequest,
       { otps := s.otps.set i { r with attempts := r.attempts + 1, isUsed := true },
         booking := s.booking }) := by
  unfold verifyBookingOtp
  rw [heq]
  dsimp only
  rw [if_neg (by simpa using hotp)]
  rw [if_neg (by
    simp only [Bool.and_eq_true, beq_iff_eq]
    exact fun hc => hnot ⟨hc.1, hc.2⟩)]

/-- C10 witness: concrete run on a booking still in assigned - the call
fails, the store shows the consumed record, the booking is untouched. -/
theorem C10_witness :
    verifyBookingOtp 10 5 2 "111222" earlyOtpState =
      (.error .InvalidVerificationRequest, c10OutState) ∧
    c10OutState.otps.all (fun o => o.isUsed) = true ∧
    c10OutState.booking = earlyOtpState.booking := by
  refine ⟨?_, by decide, by decide⟩
  have h := C10_thm 10 5 2 "111222" earlyOtpState 0 ⟨5, 2, "111222", 100, false, 0, 0⟩
    (by decide) rfl (by decide)
  exact h.trans (by decide)

/-- C2: evaluation of the code at the spec scenario (services 500, no
parts, no discount, add 2 units of a 50-cost part).  The controller-built
document gets partsAmount 100 as claimed, but the recomputed final total
600 is written into totalAmount while finalAmount stays 500, so the
claimed identity finalAmount = totalAmount + partsAmount - discount fails
(500 vs 700); the subsequent save is rejected anyway because the guard
status "in-progress" is outside the schema enum, and with an enum status
like in_progress the guard itself rejects - no parts mutation can
complete. -/
theorem C2_code_bug_thm :
    addPartsDoc c2Catalog 9 [(1, 2)] c2Booking = .ok c2Doc ∧
    c2Doc.partsAmount = 100 ∧ c2Doc.finalAmount = 500 ∧ c2Doc.totalAmount = 600 ∧
    c2Doc.finalAmount ≠ c2Doc.totalAmount + c2Doc.partsAmount - c2Doc.discountAmount ∧
    addPartsToBooking c2Catalog 9 [(1, 2)] c2Booking =
      .error ⟨500, "Booking validation failed: status is not a valid enum value"⟩ ∧
    addPartsToBooking c2Catalog 9 [(1, 2)] { c2Booking with status := "in_progress" } =
      .error ⟨400, "Parts can only be added to bookings in progress"⟩ := by decide

/-- C8: a booking in the schema status in_progress is rejected by
addPartsToBooking (its guard compares against the hyphenated literal
"in-progress", which no schema-valid booking can carry); and in fact no
call of addPartsToBooking can ever succeed - every enum status fails the
guard, and the one status passing the guard fails the save validation. -/
theorem C8_code_bug_thm :
    addPartsToBooking c2Catalog 9 [(1, 1)] { c2Booking with status := "in_progress" } =
      .error ⟨400, "Parts can only be added to bookings in progress"⟩ ∧
    ∀ (catalog : List Part) (uid : Nat) (req : List (Nat × Int)) (b : Booking),
      exceptOk (addPartsToBooking catalog uid req b) = false := by
  refine ⟨by decide, ?_⟩
  intro catalog uid req b
  unfold addPartsToBooking addPartsDoc
  split
  · rfl
  case h_2 b2 heq =>
    split at heq
    · cases heq
    · split at heq
      · cases heq
      case isFalse hst =>
        have hst2 : b.status = "in-progress" := by
          by_contra hx
          exact hst (by simpa using hx)
        split at heq
        · cases heq
        · injection heq with heq2
          subst heq2
          have hcont : validBookingStatuses.contains "in-progress" = false := by decide
          dsimp only [saveBooking, exceptOk]
          rw [hst2, hcont]
          simp

/-- C7: the matching engine is never executed.  Every call of
assignTechnicianToBooking that passes the role and already-assigned guards
crashes at User.discriminator('Technician') (called without a schema), so
no candidate is ever filtered, ranked or selected, and the
no-technician-available exit is never produced; in particular the admin
auto-assignment request of the spec scenario errors out, and no call of
the handler ever succeeds. -/
theorem C7_code_bug_thm :
    assignTechnicianToBooking 1 "admin" none false baseBooking =
      .error ⟨500, "User.discriminator called without a discriminator schema"⟩ ∧
    ∀ (uid : Nat) (role : String) (tech? : Option Nat) (force : Bool) (b : Booking),
      exceptOk (assignTechnicianToBooking uid role tech? force b) = false := by
  refine ⟨by decide, ?_⟩
  intro uid role tech? force b
  unfold assignTechnicianToBooking
  split
  · rfl
  · split
    · rfl
    · rfl

/-- C9: no availability evaluation ever runs - automatic assignment
crashes at User.discriminator before its aggregation pipeline (and the
weekday computation feeding the pipeline would itself throw RangeError:
'lowercase' is not a legal weekday option), so no technician is ever
judged eligible or excluded.  Moreover the isWorkingNow $addFields
expression, as written in the dead pipeline, compares the encoded instant
only against the integer hour prefixes of the configured start and end
(inclusive on both ends) and evaluates no break-window condition at all:
at 00:10 on a monday window of 00:30-23:30 with a break covering the whole
day it would still yield true, against the minute-resolution in-window
predicate of the claim. -/
theorem C9_code_bug_thm :
    exceptOk (assignTechnicianToBooking 1 "manager" none false
      { baseBooking with services := [⟨10, 500, 1, 60, []⟩] }) = false ∧
    isWorkingNow "monday" (currentTimeOf 0 10) c9Tech = true ∧
    specInWindow "00:30" "23:30" 0 10 = false ∧
    c9Tech.breakStart = some 0 ∧ c9Tech.breakEnd = some 2359 ∧
    lookupDay c9Tech.workingHours "monday" = some ⟨"00:30", "23:30", true⟩ := by
  decide

/-- A saved push-and-set-status document restores the history invariant
and only appends. -/
theorem pushset_hist {b b2 : Booking} {st : String} {a : Nat} {n : String}
    (h : saveBooking { pushHistory b st a n with status := st } = .ok b2) :
    histInv b2 ∧ ∃ t, b2.statusHistory = b.statusHistory ++ t := by
  rw [saveBooking_ok h]
  exact ⟨histInv_pushset b st a n, ⟨_, rfl⟩⟩

/-- updateBookingStatus preserves the history invariant and appends. -/
theorem updateBookingStatus_hist (uid : Nat) (st? n? : Option String) :
    preservesHist (updateBookingStatus uid st? n?) := by
  intro b b2 h
  unfold updateBookingStatus at h
  cases st? with
  | none => cases h
  | some st =>
    dsimp only at h
    split at h
    · cases h
    · obtain ⟨h1, h2⟩ := pushset_hist h
      exact ⟨fun _ => h1, h2⟩

/-- updateBookingById throws 403 before any write. -/
theorem updateBookingById_hist (uid : Nat) (role : String)
    (techRole : Nat → Option String) (st? : Option String) (t? : Option Nat)
    (sch? : Option Nat) (n? : Option String) :
    preservesHist (updateBookingById uid role techRole st? t? sch? n?) := by
  intro b b2 h
  unfold updateBookingById isAdminOrManagerCall at h
  cases h

/-- cancelBooking preserves the history invariant and appends. -/
theorem cancelBooking_hist (uid : Nat) (r? : Option String) :
    preservesHist (cancelBooking uid r?) := by
  intro b b2 h
  unfold cancelBooking at h
  cases r? with
  | none => cases h
  | some r =>
    dsimp only at h
    split at h
    · cases h
    · obtain ⟨h1, h2⟩ := pushset_hist h
      exact ⟨fun _ => h1, h2⟩

/-- markTechnicianReached preserves the history invariant and appends. -/
theorem markTechnicianReached_hist (tid : Nat) :
    preservesHist (markTechnicianReached tid) := by
  intro b b2 h
  unfold markTechnicianReached at h
  split at h
  · cases h
  · obtain ⟨h1, h2⟩ := pushset_hist h
    exact ⟨fun _ => h1, h2⟩

/-- uploadSelfie preserves the history invariant and appends. -/
theorem uploadSelfie_hist (tid : Nat) (hf uo : Bool) :
    preservesHist (uploadSelfie tid hf uo) := by
  intro b b2 h
  unfold uploadSelfie at h
  split at h
  · cases h
  · split at h
    · cases h
    · split at h
      · cases h
      case isFalse hmem =>
        split at h
        · cases h
        · split at h
          case isTrue hassigned =>
            obtain ⟨h1, h2⟩ := pushset_hist h
            exact ⟨fun _ => h1, h2⟩
          case isFalse hassigned =>
            have hm : ¬b.status = "assigned" → b.status = "in_progress" := by
              simpa using hmem
            have hst : b.status = "in_progress" := by
              refine hm (fun h3 => hassigned ?_)
              simp [h3]
            rw [saveBooking_ok h]
            exact ⟨fun _ => histInv_push_same b "in_progress" tid _ hst, ⟨_, rfl⟩⟩

/-- markBookingCompleted preserves the history invariant and appends. -/
theorem markBookingCompleted_hist (tid : Nat) :
    preservesHist (markBookingCompleted tid) := by
  intro b b2 h
  unfold markBookingCompleted at h
  split at h
  · cases h
  · obtain ⟨h1, h2⟩ := pushset_hist h
    exact ⟨fun _ => h1, h2⟩

/-- submitBookingFeedback neither changes status nor history. -/
theorem submitBookingFeedback_hist (uid : Nat) (rat : Int) (rev : String) :
    preservesHist (submitBookingFeedback uid rat rev) := by
  intro b b2 h
  unfold submitBookingFeedback at h
  split at h
  · cases h
  · split at h
    · cases h
    · split at h
      · cases h
      · rw [saveBooking_ok h]
        exact ⟨fun hp => hp, [], by simp⟩

/-- updateBookingAssignment preserves the history invariant and appends. -/
theorem updateBookingAssignment_hist (tid : Nat) (act : String) :
    preservesHist (updateBookingAssignment tid act) := by
  intro b b2 h
  unfold updateBookingAssignment at h
  split at h
  · cases h
  · split at h
    · cases h
    · split at h
      · obtain ⟨h1, h2⟩ := pushset_hist h
        exact ⟨fun _ => h1, h2⟩
      · obtain ⟨h1, h2⟩ := pushset_hist h
        exact ⟨fun _ => h1, h2⟩

/-- updateJobStatus preserves the history invariant and appends. -/
theorem updateJobStatus_hist (tid : Nat) (st : String) (n? : Option String) :
    preservesHist (updateJobStatus tid st n?) := by
  intro b b2 h
  unfold updateJobStatus at h
  split at h
  · cases h
  · split at h
    · cases h
    · dsimp only at h
      split at h
      · cases h
      · obtain ⟨h1, h2⟩ := pushset_hist h
        exact ⟨fun _ => h1, h2⟩

/-- rescheduleBooking preserves the history invariant: its first entry is
recorded under the unchanged current status, and when a technician is
unassigned the second entry matches the reverted status confirmed. -/
theorem rescheduleBooking_hist (uid : Nat) (role : String) (sch? sl? : Option Nat)
    (r? : Option String) : preservesHist (rescheduleBooking uid role sch? sl? r?) := by
  intro b b2 h
  unfold rescheduleBooking at h
  cases sch? with
  | none => cases sl? <;> cases h
  | some sch =>
    cases sl? with
    | none => cases h
    | some sl =>
      dsimp only at h
      split at h
      · cases h
      · split at h
        · cases h
        · split at h
          case isTrue hsome =>
            rw [saveBooking_ok h]
            refine ⟨fun _ => histInv_push_same _ "confirmed" uid _ rfl,
              [⟨b.status, uid, (r?).getD "No reason provided"⟩,
               ⟨"confirmed", uid, "Technician unassigned due to rescheduling"⟩], ?_⟩
            simp [pushHistory]
          case isFalse hsome =>
            rw [saveBooking_ok h]
            exact ⟨fun _ => histInv_push_same _ b.status uid _ rfl, ⟨_, rfl⟩⟩

/-- addPartsToBooking touches neither status nor statusHistory. -/
theorem addPartsToBooking_hist (catalog : List Part) (uid : Nat)
    (req : List (Nat × Int)) : preservesHist (addPartsToBooking catalog uid req) := by
  intro b b2 h
  unfold addPartsToBooking addPartsDoc at h
  split at h
  · cases h
  case h_2 b3 heq =>
    rw [saveBooking_ok h]
    split at heq
    · cases heq
    · split at heq
      · cases heq
      · split at heq
        · cases heq
        · injection heq with heq2
          subst heq2
          exact ⟨fun hp => hp, [], by simp⟩

/-- removePartFromBooking touches neither status nor statusHistory. -/
theorem removePartFromBooking_hist (uid : Nat) (partId : Nat) (q? : Option Int) :
    preservesHist (removePartFromBooking uid partId q?) := by
  intro b b2 h
  unfold removePartFromBooking at h
  split at h
  · cases h
  · split at h
    · cases h
    · dsimp only at h
      rw [saveBooking_ok h]
      exact ⟨fun hp => hp, [], by simp⟩

/-- assignTechnicianToBooking preserves the history invariant vacuously:
every call errors out (at the latest at the discriminator crash), so it
never touches the booking at all. -/
theorem assignTechnicianToBooking_hist (uid : Nat) (role : String) (t? : Option Nat)
    (force : Bool) :
    preservesHist (assignTechnicianToBooking uid role t? force) := by
  intro b b2 h
  unfold assignTechnicianToBooking at h
  split at h
  · cases h
  · split at h
    · cases h
    · cases h

/-- verifyBookingOtp only ever appends the in_progress entry it also sets
as status; every error exit leaves the booking unchanged. -/
theorem verifyOtp_hist (now bid tid : Nat) (sub : String) (s : VerifyState)
    (res : Except VerifyErr Unit) (s2 : VerifyState)
    (h : verifyBookingOtp now bid tid sub s = (res, s2)) :
    (histInv s.booking → histInv s2.booking) ∧
    ∃ t, s2.booking.statusHistory = s.booking.statusHistory ++ t := by
  unfold verifyBookingOtp at h
  split at h
  · injection h with h1 h2
    subst h2
    exact ⟨fun hp => hp, [], by simp⟩
  case h_2 i r heq =>
    dsimp only at h
    split at h
    · split at h <;> (injection h with h1 h2; subst h2; exact ⟨fun hp => hp, [], by simp⟩)
    · split at h
      · split at h
        case h_1 b3 hsave =>
          injection h with h1 h2
          subst h2
          rw [saveBooking_ok hsave]
          exact ⟨fun _ => histInv_push_same _ "in_progress" tid _ rfl, ⟨_, rfl⟩⟩
        case h_2 e hsave =>
          injection h with h1 h2
          subst h2
          exact ⟨fun hp => hp, [], by simp⟩
      · injection h with h1 h2
        subst h2
        exact ⟨fun hp => hp, [], by simp⟩

/-- generateBookingOtp only ever appends the otp_pending entry it also
sets as status; every error exit leaves the booking unchanged. -/
theorem genOtp_hist (now bid tid : Nat) (code : String) (s : VerifyState)
    (res : Except ApiErr Unit) (s2 : VerifyState)
    (h : generateBookingOtp now bid tid code s = (res, s2)) :
    (histInv s.booking → histInv s2.booking) ∧
    ∃ t, s2.booking.statusHistory = s.booking.statusHistory ++ t := by
  unfold generateBookingOtp at h
  split at h
  · injection h with h1 h2
    subst h2
    exact ⟨fun hp => hp, [], by simp⟩
  · dsimp only at h
    split at h
    case h_1 b3 hsave =>
      injection h with h1 h2
      subst h2
      rw [saveBooking_ok hsave]
      exact ⟨fun _ => histInv_push_same _ "otp_pending" tid _ rfl, ⟨_, rfl⟩⟩
    case h_2 e hsave =>
      injection h with h1 h2
      subst h2
      exact ⟨fun hp => hp, [], by simp⟩

/-- C5: every embedded exported mutating operation that completes leaves
the booking with its status equal to the status of the last statusHistory
entry (assuming the invariant held before, which only the no-history
operations even need), and only ever appends to statusHistory - its
length never decreases and existing entries are never rewritten.  The
updateBookingById path that would break the invariant (pushing a
rescheduled entry without changing status) is unreachable: its permission
check invokes the role middleware with the User model as the request, so
it throws 403 for every caller. -/
theorem C5_thm :
    (∀ uid st? n?, preservesHist (updateBookingStatus uid st? n?)) ∧
    (∀ uid role techRole st? t? sch? n?,
       preservesHist (updateBookingById uid role techRole st? t? sch? n?)) ∧
    (∀ uid r?, preservesHist (cancelBooking uid r?)) ∧
    (∀ tid, preservesHist (markTechnicianReached tid)) ∧
    (∀ tid hf uo, preservesHist (uploadSelfie tid hf uo)) ∧
    (∀ tid, preservesHist (markBookingCompleted tid)) ∧
    (∀ uid role sch? sl? r?, preservesHist (rescheduleBooking uid role sch? sl? r?)) ∧
    (∀ uid rat rev, preservesHist (submitBookingFeedback uid rat rev)) ∧
    (∀ tid act, preservesHist (updateBookingAssignment tid act)) ∧
    (∀ tid st n?, preservesHist (updateJobStatus tid st n?)) ∧
    (∀ catalog uid req, preservesHist (addPartsToBooking catalog uid req)) ∧
    (∀ uid pid q?, preservesHist (removePartFromBooking uid pid q?)) ∧
    (∀ uid role t? force,
       preservesHist (assignTechnicianToBooking uid role t? force)) ∧
    (∀ now bid tid sub s res s2, verifyBookingOtp now bid tid sub s = (res, s2) →
       (histInv s.booking → histInv s2.booking) ∧
       ∃ t, s2.booking.statusHistory = s.booking.statusHistory ++ t) ∧
    (∀ now bid tid code s res s2, generateBookingOtp now bid tid code s = (res, s2) →
       (histInv s.booking → histInv s2.booking) ∧
       ∃ t, s2.booking.statusHistory = s.booking.statusHistory ++ t) :=
  ⟨updateBookingStatus_hist, updateBookingById_hist, cancelBooking_hist,
   markTechnicianReached_hist, uploadSelfie_hist, markBookingCompleted_hist,
   rescheduleBooking_hist, submitBookingFeedback_hist, updateBookingAssignment_hist,
   updateJobStatus_hist, addPartsToBooking_hist, removePartFromBooking_hist,
   assignTechnicianToBooking_hist,
   fun now bid tid sub s res s2 h => verifyOtp_hist now bid tid sub s res s2 h,
   fun now bid tid code s res s2 h => genOtp_hist now bid tid code s res s2 h⟩

/-- C5 witness: a concrete status change through the generic endpoint -
the result keeps status equal to the last history entry and extends the
log of the input booking. -/
theorem C5_witness :
    histInv c5Out ∧ ∃ t, c5Out.statusHistory = baseBooking.statusHistory ++ t := by
  have h := C5_thm.1 1 (some "confirmed") none baseBooking c5Out (by decide)
  exact ⟨h.1 (by unfold histInv; decide), h.2⟩
